import Mathlib

/-!
Verification of the godzilla mutation-testing engine.

This file gives a shallow embedding of the Go sources of the repository
(`mutators.go`, `cmd/godzilla/main.go`) and proves the frozen claims about
them.  The Go AST (`go/ast`) is embedded as the inductive types `Expr`,
`Stmt`, `Node` below; every node carries a `NodeMeta` record holding

  * `line`/`col` — the resolved source position of the node's `Pos()`
    (the Go code always passes a node position through
    `FileSet.Position`, so we embed positions already resolved), and
  * `id` — a key standing for the node's pointer identity, used to look
    up `types.Info.Types` entries (the Go map is keyed by `ast.Expr`
    pointer values).

Go mutators mutate the tree in place and call `tester.Test()` while the
tree is mutated.  We embed a mutator as a function producing
`Option (List Node × Node)`: the list collects the value of the mutated
subtree at each `tester.Test()` invocation (in order), the second
component is the tree after the mutator returns, and `none` models a
runtime panic (failed type assertion / out-of-range index).  A Go `return`
before any mutation becomes `some ([], node)`.
-/

/-- Position and identity data carried by every embedded AST node:
`line`/`col` are `FileSet.Position(node.Pos())`, `id` is the node's
pointer identity (the key used by the `types.Info.Types` map). -/
structure NodeMeta where
  line : Int
  col : Int
  id : Nat
  deriving DecidableEq, Repr

/-- Embedding of `go/token.Token`, restricted to the tokens the mutators
inspect.  Literal kinds (`token.INT`, …) are tokens in Go, so they live in
the same type.  `otherTok` stands for every other token. -/
inductive Tok where
  | INT | FLOAT | STRING | CHAR | IMAG
  | ADD | SUB | MUL | QUO | REM
  | AND | OR | XOR | SHL | SHR
  | LAND | LOR | NOT
  | EQL | NEQ | LSS | LEQ | GTR | GEQ
  | ASSIGN | DEFINE
  | ADD_ASSIGN | SUB_ASSIGN | MUL_ASSIGN | QUO_ASSIGN | REM_ASSIGN
  | AND_ASSIGN | OR_ASSIGN | XOR_ASSIGN | SHL_ASSIGN | SHR_ASSIGN
  | otherTok
  deriving DecidableEq, Repr

/-- Embedding of `go/ast` expressions.  Constructors mirror the node
kinds the mutators match on (`*ast.BasicLit`, `*ast.Ident`,
`*ast.BinaryExpr`, `*ast.UnaryExpr`, `*ast.ParenExpr`); `otherExpr`
stands for every other expression kind, which all mutators fall through
on. -/
inductive Expr where
  | basicLit (m : NodeMeta) (kind : Tok) (value : String)
  | ident (m : NodeMeta) (name : String)
  | binaryExpr (m : NodeMeta) (x : Expr) (op : Tok) (y : Expr)
  | unaryExpr (m : NodeMeta) (op : Tok) (x : Expr)
  | parenExpr (m : NodeMeta) (x : Expr)
  | otherExpr (m : NodeMeta)
  deriving DecidableEq, Repr

/-- Embedding of `go/ast` statements.  `ifStmt` and `switchStmt` inline
their `*ast.BlockStmt` body as `(bodyM, body)` — in Go the `Body` field
is a non-nil `*ast.BlockStmt` for parsed code, `bodyM` being the block's
own position data.  `els` is the `Else` field (`nil`, a `*ast.BlockStmt`
or an `*ast.IfStmt`).  `otherStmt` stands for every other statement
kind. -/
inductive Stmt where
  | exprStmt (m : NodeMeta) (x : Expr)
  | assignStmt (m : NodeMeta) (lhs : List Expr) (tok : Tok) (rhs : List Expr)
  | ifStmt (m : NodeMeta) (cond : Expr) (bodyM : NodeMeta) (body : List Stmt) (els : Option Stmt)
  | blockStmt (m : NodeMeta) (list : List Stmt)
  | switchStmt (m : NodeMeta) (bodyM : NodeMeta) (body : List Stmt)
  | caseClause (m : NodeMeta) (list : List Expr) (body : List Stmt)
  | sendStmt (m : NodeMeta) (chanE : Expr) (value : Expr)
  | returnStmt (m : NodeMeta) (results : List Expr)
  | otherStmt (m : NodeMeta)

/-- Embedding of `ast.Node` as the mutators receive it from `ast.Walk`. -/
inductive Node where
  | expr (e : Expr)
  | stmt (s : Stmt)

def exprMeta : Expr → NodeMeta
  | .basicLit m _ _ => m
  | .ident m _ => m
  | .binaryExpr m _ _ _ => m
  | .unaryExpr m _ _ => m
  | .parenExpr m _ => m
  | .otherExpr m => m

def stmtMeta : Stmt → NodeMeta
  | .exprStmt m _ => m
  | .assignStmt m _ _ _ => m
  | .ifStmt m _ _ _ _ => m
  | .blockStmt m _ => m
  | .switchStmt m _ _ => m
  | .caseClause m _ _ => m
  | .sendStmt m _ _ => m
  | .returnStmt m _ => m
  | .otherStmt m => m

/-- `node.Pos()` resolved through the file set. -/
def nodeMeta : Node → NodeMeta
  | .expr e => exprMeta e
  | .stmt s => stmtMeta s

/-- Embedding of `go/types` basic kinds the mutators inspect. -/
inductive BasicKind where
  | boolKind | float32Kind | float64Kind | stringKind | untypedStringKind | otherBasic
  deriving DecidableEq, Repr

/-- Embedding of `go/types.Type`: either a `*types.Basic` of some kind, or
any other type (struct, pointer, named, …), on which the predicates all
fail their type assertion. -/
inductive GoType where
  | basic (k : BasicKind)
  | nonBasic
  deriving DecidableEq, Repr

/-- Embedding of `types.TypeAndValue`: the `Type` field plus the result
of the `IsVoid()` method (in Go, `mode == novalue`). -/
structure TypeAndValue where
  type : GoType
  isVoid : Bool
  deriving DecidableEq, Repr

/-- Embedding of `cover.ProfileBlock`. -/
structure ProfileBlock where
  startLine : Int
  startCol : Int
  endLine : Int
  endCol : Int
  count : Int
  deriving DecidableEq, Repr

/-- Embedding of `godzilla.ParseInfo`.  The `FileSet` field is absorbed
into node positions (see `NodeMeta`); `typesInfo` is the
`TypesInfo.Types` map, keyed by expression identity. -/
structure ParseInfo where
  coveredBlocks : List ProfileBlock
  typesInfo : Nat → Option TypeAndValue

/-- The range test of `covered` (mutators.go:101-102): the node position
lies inside the profile block. -/
def inBlockRange (block : ProfileBlock) (line col : Int) : Bool :=
  (decide (block.startLine < line) || (block.startLine == line && decide (col ≥ block.startCol))) &&
  (decide (block.endLine > line) || (block.endLine == line && decide (col ≤ block.endCol)))

/-- `covered` (mutators.go:93-107): true if some profile block with
positive count contains the node's resolved position. -/
def covered (parseInfo : ParseInfo) (node : Node) : Bool :=
  let pos := nodeMeta node
  parseInfo.coveredBlocks.any fun block =>
    decide (block.count > 0) && inBlockRange block pos.line pos.col

/-- A mutation operator (`godzilla.Mutator`): returns the tree passed to
`tester.Test()` at each invocation plus the final tree, or `none` on a
runtime panic. -/
def Mutator : Type := ParseInfo → Node → Option (List Node × Node)

/-- `godzilla.Desc`. -/
structure Desc where
  M : Mutator
  Description : String

/-!
## Literal and type predicates (mutators.go:672-714)

`isZero`/`isOne` call `regexp.Match`, which searches for a match of the
pattern *anywhere* in the input.  `zeroRegexp` is
`^(0+(\.0*|))|(\.0+)$`; regular-expression alternation binds weakest, so
this is the alternation of the prefix-anchored `^0+(\.0*|)` and the
suffix-anchored `(\.0+)$`.  An unanchored search finds the first branch
exactly when the value starts with `0` (the `0+` may match the leading
zero alone), and the second exactly when some `.` is followed by one or
more `0`s running to the end of the value.  `oneRegexp` is `^1(\.0+|)$`,
anchored on both sides, hence an exact match of `1` or `1.` followed by
one or more `0`s.
-/

/-- `∃` a match of `\.0+` ending at the end of the input: some `.` is
followed by a nonempty all-zero run reaching the end. -/
def endsInDotZeros : List Char → Bool
  | [] => false
  | '.' :: rest => (!rest.isEmpty && rest.all (· = '0')) || endsInDotZeros rest
  | _ :: rest => endsInDotZeros rest

/-- `zeroRegexp.Match([]byte(value))` (mutators.go:672): unanchored
search for `^(0+(\.0*|))|(\.0+)$`. -/
def zeroRegexpMatch (value : String) : Bool :=
  (match value.toList with
   | '0' :: _ => true
   | _ => false) || endsInDotZeros value.toList

/-- `oneRegexp.Match([]byte(value))` (mutators.go:687): search for
`^1(\.0+|)$`, which is anchored at both ends. -/
def oneRegexpMatch (value : String) : Bool :=
  match value.toList with
  | '1' :: rest =>
    (match rest with
     | [] => true
     | '.' :: zs => !zs.isEmpty && zs.all (· = '0')
     | _ => false)
  | _ => false

/-- `isZero` (mutators.go:675-685). -/
def isZero (e : Expr) : Bool :=
  match e with
  | .basicLit _ kind value =>
    match kind with
    | .INT | .FLOAT => zeroRegexpMatch value
    | _ => false
  | _ => false

/-- `isOne` (mutators.go:689-700). -/
def isOne (e : Expr) : Bool :=
  match e with
  | .basicLit _ kind value =>
    match kind with
    | .INT | .FLOAT => oneRegexpMatch value
    | _ => false
  | _ => false

/-- `isString` (mutators.go:702-714): the expression's recorded type is
basic `string` or untyped string. -/
def isString (parseInfo : ParseInfo) (e : Expr) : Bool :=
  match parseInfo.typesInfo (exprMeta e).id with
  | none => false
  | some t =>
    match t.type with
    | .basic k => k == .stringKind || k == .untypedStringKind
    | _ => false

/-- The `isBool` closure of `FloatComparisonInverter` (mutators.go:548-563):
the expression's recorded type is basic `bool`. -/
def isBoolTyped (parseInfo : ParseInfo) (e : Expr) : Bool :=
  match parseInfo.typesInfo (exprMeta e).id with
  | none => false
  | some t =>
    match t.type with
    | .basic k => k == .boolKind
    | _ => false

/-- The void test of `VoidCallRemoverMutator` (mutators.go:125-131): the
two-result map read `v, ok := Types[expr.X]` leaves `v` as the zero
`TypeAndValue` when the entry is missing (the `if !ok` body is empty),
and the zero value's `IsVoid()` is `false`. -/
def isVoidLookup (parseInfo : ParseInfo) (e : Expr) : Bool :=
  match parseInfo.typesInfo (exprMeta e).id with
  | none => false
  | some v => v.isVoid

/-!
## Operator tables (mutators.go:223-228, 257-273, 328-344, 387-390,
417-426, 530-539), embedded as the Go two-result map lookup `op, ok :=
table[tok]`.
-/

def conditionalsBoundaryMutatorTable : Tok → Option Tok
  | .LSS => some .LEQ
  | .LEQ => some .LSS
  | .GTR => some .GEQ
  | .GEQ => some .GTR
  | _ => none

def mathMutatorTable : Tok → Option Tok
  | .ADD => some .SUB
  | .SUB => some .ADD
  | .MUL => some .QUO
  | .QUO => some .MUL
  | .REM => some .MUL
  | .AND => some .OR
  | .OR => some .AND
  | .XOR => some .AND
  | .SHL => some .SHR
  | .SHR => some .SHL
  | _ => none

def mathAssignementMutatorTable : Tok → Option Tok
  | .ADD_ASSIGN => some .SUB_ASSIGN
  | .SUB_ASSIGN => some .ADD_ASSIGN
  | .MUL_ASSIGN => some .QUO_ASSIGN
  | .QUO_ASSIGN => some .MUL_ASSIGN
  | .REM_ASSIGN => some .MUL_ASSIGN
  | .AND_ASSIGN => some .OR_ASSIGN
  | .OR_ASSIGN => some .AND_ASSIGN
  | .XOR_ASSIGN => some .AND_ASSIGN
  | .SHL_ASSIGN => some .SHR_ASSIGN
  | .SHR_ASSIGN => some .SHL_ASSIGN
  | _ => none

def booleanMutatorTable : Tok → Option Tok
  | .LAND => some .LOR
  | .LOR => some .LAND
  | _ => none

def negateConditionalsMutatorTable : Tok → Option Tok
  | .EQL => some .NEQ
  | .NEQ => some .EQL
  | .LSS => some .GEQ
  | .GEQ => some .LSS
  | .GTR => some .LEQ
  | .LEQ => some .GTR
  | _ => none

def floatComparisonInverterMap : Tok → Option Tok
  | .EQL => some .NEQ
  | .NEQ => some .EQL
  | .LSS => some .GEQ
  | .GEQ => some .LSS
  | .LEQ => some .GTR
  | .GTR => some .LEQ
  | _ => none

/-!
## The mutation operators (mutators.go:110-670)

Each operator mirrors its Go source line by line.  In-place mutation is
modelled by threading the current value of the mutated subtree; the Go
statement sequence `mutate; tester.Test(); restore` contributes the
mutated tree to the snapshot list and continues with the value produced
by the restoring assignments (read back from the mutated state exactly
as the Go code reads it).
-/

/-- The loop of `VoidCallRemoverMutator` (mutators.go:119-143).
`for i, stmt := range block.List` iterates over the slice captured at
loop entry (`orig.enum`), while `block.List` reads and writes go through
the threaded current value `cur`:  `mutation` is built by copying `cur`
and dropping index `i`, `old := block.List` saves `cur`, and after the
test `block.List = old` continues with `old`. -/
def voidCallRemoverLoop (parseInfo : ParseInfo) (m : NodeMeta) :
    List (Nat × Stmt) → List Stmt → List Node × List Stmt
  | [], cur => ([], cur)
  | (i, s) :: rest, cur =>
    match s with
    | .exprStmt _ x =>
      if isVoidLookup parseInfo x then
        let mutation := cur.eraseIdx i
        let old := cur
        let next := voidCallRemoverLoop parseInfo m rest old
        (Node.stmt (.blockStmt m mutation) :: next.1, next.2)
      else
        voidCallRemoverLoop parseInfo m rest cur
    | _ => voidCallRemoverLoop parseInfo m rest cur

/-- `VoidCallRemoverMutator` (mutators.go:110-144). -/
def VoidCallRemoverMutator : Mutator := fun parseInfo node =>
  if !covered parseInfo node then some ([], node)
  else
    match node with
    | .stmt (.blockStmt m list) =>
      let r := voidCallRemoverLoop parseInfo m list.enum list
      some (r.1, .stmt (.blockStmt m r.2))
    | _ => some ([], node)

/-- The loop of `SwapSwitchCase` (mutators.go:166-183).  `for i := range
stmt.Body.List` iterates `i` over the index range of the slice captured
at loop entry (`idxs = List.range n`); element reads and the two
parallel-assignment swaps go through the threaded current list `cur`.
The two type assertions `.(*ast.CaseClause)` panic (`none`) on any other
statement kind.  The second swap acts through the pointers `a`, `b`
obtained before the first swap, so it rewrites indices `i`, `j` with the
bodies read after the first swap. -/
def swapSwitchCaseLoop (parseInfo : ParseInfo) (m bodyM : NodeMeta) (n : Nat) :
    List Nat → List Stmt → Option (List Node × List Stmt)
  | [], cur => some ([], cur)
  | i :: idxs, cur =>
    let j := (i + 1) % n
    match cur[i]?, cur[j]? with
    | some (.caseClause am al ab), some (.caseClause bm bl bb) =>
      if !covered parseInfo (.stmt (.caseClause am al ab)) &&
         !covered parseInfo (.stmt (.caseClause bm bl bb)) then
        swapSwitchCaseLoop parseInfo m bodyM n idxs cur
      else
        -- a.Body, b.Body = b.Body, a.Body
        let cur1 := (cur.set i (.caseClause am al bb)).set j (.caseClause bm bl ab)
        -- tester.Test()  (snapshot below)
        -- a.Body, b.Body = b.Body, a.Body  (same clauses, bodies re-read)
        let cur2 := (cur1.set i (.caseClause am al ab)).set j (.caseClause bm bl bb)
        match swapSwitchCaseLoop parseInfo m bodyM n idxs cur2 with
        | none => none
        | some next => some (Node.stmt (.switchStmt m bodyM cur1) :: next.1, next.2)
    | _, _ => none

/-- `SwapSwitchCase` (mutators.go:147-184). -/
def SwapSwitchCase : Mutator := fun parseInfo node =>
  if !covered parseInfo node then some ([], node)
  else
    match node with
    | .stmt (.switchStmt m bodyM list) =>
      if list.length < 2 then some ([], node)
      else
        match swapSwitchCaseLoop parseInfo m bodyM list.length (List.range list.length) list with
        | none => none
        | some r => some (r.1, .stmt (.switchStmt m bodyM r.2))
    | _ => some ([], node)

/-- `SwapIfElse` (mutators.go:188-221). -/
def SwapIfElse : Mutator := fun parseInfo node =>
  if !covered parseInfo node then some ([], node)
  else
    match node with
    | .stmt (.ifStmt m cond bodyM body els) =>
      match els with
      | none => some ([], node)  -- ifstmt.Else == nil
      | some elStmt =>
        match elStmt with
        | .blockStmt elM elList =>
          -- `if !covered(parseInfo, ifstmt) && !covered(parseInfo, el)`:
          -- note the first conjunct re-tests the *if statement*, not its body.
          if !covered parseInfo node &&
             !covered parseInfo (.stmt (.blockStmt elM elList)) then
            some ([], node)
          else
            -- ifstmt.Else = ifstmt.Body; ifstmt.Body = el
            let mutated : Stmt :=
              .ifStmt m cond elM elList (some (.blockStmt bodyM body))
            -- tester.Test()
            -- ifstmt.Body = ifstmt.Else.(*ast.BlockStmt); ifstmt.Else = el
            let restored : Option Stmt :=
              match mutated with
              | .ifStmt m2 cond2 _ _ (some (.blockStmt bm2 bl2)) =>
                some (.ifStmt m2 cond2 bm2 bl2 (some (.blockStmt elM elList)))
              | _ => none
            match restored with
            | some r => some ([.stmt mutated], .stmt r)
            | none => none
        | _ => some ([], node)  -- else is part of an else-if
    | _ => some ([], node)

/-- `ConditionalsBoundaryMutator` (mutators.go:235-255). -/
def ConditionalsBoundaryMutator : Mutator := fun parseInfo node =>
  if !covered parseInfo node then some ([], node)
  else
    match node with
    | .expr (.binaryExpr m x op y) =>
      match conditionalsBoundaryMutatorTable op with
      | none => some ([], node)
      | some op2 =>
        -- old := expr.Op; expr.Op = op; tester.Test(); expr.Op = old
        some ([.expr (.binaryExpr m x op2 y)], .expr (.binaryExpr m x op y))
    | _ => some ([], node)

/-- `MathMutator` (mutators.go:286-326). -/
def MathMutator : Mutator := fun parseInfo node =>
  if !covered parseInfo node then some ([], node)
  else
    match node with
    | .expr (.binaryExpr m x op y) =>
      match mathMutatorTable op with
      | none => some ([], node)
      | some op2 =>
        let skip : Bool :=
          match op with
          | .ADD => isZero x || isZero y || isString parseInfo x
          | .SUB => isZero x || isZero y
          | .MUL => isOne x || isOne y
          | .QUO => isOne y
          | _ => false
        if skip then some ([], node)
        else
          some ([.expr (.binaryExpr m x op2 y)], .expr (.binaryExpr m x op y))
    | _ => some ([], node)

/-- `MathAssignMutator` (mutators.go:347-385).  The gates index
`assign.Rhs[0]`, which panics when `Rhs` is empty (only reachable for a
hand-built tree; the check `len(assign.Rhs) > 1` has already returned on
longer lists). -/
def MathAssignMutator : Mutator := fun parseInfo node =>
  if !covered parseInfo node then some ([], node)
  else
    match node with
    | .stmt (.assignStmt m lhs tok rhs) =>
      match mathAssignementMutatorTable tok with
      | none => some ([], node)
      | some op2 =>
        if rhs.length > 1 then some ([], node)
        else
          let skip : Option Bool :=
            match tok with
            | .ADD_ASSIGN | .SUB_ASSIGN =>
              match rhs[0]? with
              | none => none  -- index out of range
              | some r0 => some (isZero r0)
            | .MUL_ASSIGN | .QUO_ASSIGN =>
              match rhs[0]? with
              | none => none
              | some r0 => some (isOne r0)
            | _ => some false
          match skip with
          | none => none
          | some true => some ([], node)
          | some false =>
            -- old := assign.Tok; assign.Tok = op; tester.Test(); assign.Tok = old
            some ([.stmt (.assignStmt m lhs op2 rhs)], .stmt (.assignStmt m lhs tok rhs))
    | _ => some ([], node)

/-- `BooleanOperatorsMutator` (mutators.go:395-415). -/
def BooleanOperatorsMutator : Mutator := fun parseInfo node =>
  if !covered parseInfo node then some ([], node)
  else
    match node with
    | .expr (.binaryExpr m x op y) =>
      match booleanMutatorTable op with
      | none => some ([], node)
      | some op2 =>
        some ([.expr (.binaryExpr m x op2 y)], .expr (.binaryExpr m x op y))
    | _ => some ([], node)

/-- `NegateConditionalsMutator` (mutators.go:429-449). -/
def NegateConditionalsMutator : Mutator := fun parseInfo node =>
  if !covered parseInfo node then some ([], node)
  else
    match node with
    | .expr (.binaryExpr m x op y) =>
      match negateConditionalsMutatorTable op with
      | none => some ([], node)
      | some op2 =>
        some ([.expr (.binaryExpr m x op2 y)], .expr (.binaryExpr m x op y))
    | _ => some ([], node)

/-- `DebugInspect` (mutators.go:451-453): the empty mutator. -/
def DebugInspect : Mutator := fun _ node => some ([], node)

/-- The metadata of freshly constructed replacement nodes: Go composite
literals leave position fields as `token.NoPos` and the new pointers have
no `TypesInfo` entry; `0` stands for both. -/
def noPos : NodeMeta := ⟨0, 0, 0⟩

/-- The helper `floatComparisonInverter` (mutators.go:607-670), acting on
a pointer to an expression slot.  The returned list holds the value of
that slot at each `tester.Test()`, the second component the slot's value
on return.  For `&&`/`||` the code recurses into `&binary.X` and then
`&binary.Y`, so the `Y`-recursion sees the slot with the final
`X`-value.  For a comparison it checks that the recorded type of `X` is
basic `float32`/`float64` and that `Y` has the same basic kind, then
replaces the slot by `!(X op2 Y)` (`op2` from `floatComparisonInverterMap`,
a plain Go map index whose zero value is never needed for these six
keys), tests, and writes the saved `old` back. -/
def floatComparisonInverter (parseInfo : ParseInfo) : Expr → List Expr × Expr
  | .binaryExpr m x op y =>
    match op with
    | .LOR | .LAND =>
      let rx := floatComparisonInverter parseInfo x
      let ry := floatComparisonInverter parseInfo y
      (rx.1.map (fun xs => .binaryExpr m xs op y) ++
         ry.1.map (fun ys => .binaryExpr m rx.2 op ys),
       .binaryExpr m rx.2 op ry.2)
    | .EQL | .LSS | .GTR | .NEQ | .LEQ | .GEQ =>
      match parseInfo.typesInfo (exprMeta x).id with
      | none => ([], .binaryExpr m x op y)
      | some tx =>
        match tx.type with
        | .nonBasic => ([], .binaryExpr m x op y)
        | .basic kx =>
          if kx ≠ .float32Kind ∧ kx ≠ .float64Kind then ([], .binaryExpr m x op y)
          else
            match parseInfo.typesInfo (exprMeta y).id with
            | none => ([], .binaryExpr m x op y)
            | some ty =>
              match ty.type with
              | .nonBasic => ([], .binaryExpr m x op y)
              | .basic ky =>
                if ky ≠ kx then ([], .binaryExpr m x op y)
                else
                  let op2 := match floatComparisonInverterMap op with
                    | some t => t
                    | none => .otherTok
                  -- old := *expr; *expr = &UnaryExpr{NOT, &BinaryExpr{X, op2, Y}};
                  -- tester.Test(); *expr = old
                  ([.unaryExpr noPos .NOT (.binaryExpr noPos x op2 y)],
                   .binaryExpr m x op y)
    | _ => ([], .binaryExpr m x op y)
  | .unaryExpr m op x =>
    if op ≠ .NOT then ([], .unaryExpr m op x)
    else
      let r := floatComparisonInverter parseInfo x
      (r.1.map (fun xs => .unaryExpr m op xs), .unaryExpr m op r.2)
  | .parenExpr m x =>
    let r := floatComparisonInverter parseInfo x
    (r.1.map (fun xs => .parenExpr m xs), .parenExpr m r.2)
  | .basicLit m kind value => ([], .basicLit m kind value)
  | .ident m name => ([], .ident m name)
  | .otherExpr m => ([], .otherExpr m)

/-- The inner loops of `FloatComparisonInverter` over `stmt.Rhs`
(mutators.go:568-574) and `stmt.List` (mutators.go:576-582): process the
expressions left to right; a non-boolean-typed element makes the whole
mutator `return` (third component `true`), abandoning everything after
it.  Snapshots are the value of the whole expression list at test
time. -/
def floatCompInvExprLoop (parseInfo : ParseInfo) :
    List Expr → List (List Expr) × List Expr × Bool
  | [] => ([], [], false)
  | e :: rest =>
    if !isBoolTyped parseInfo e then ([], e :: rest, true)
    else
      let r := floatComparisonInverter parseInfo e
      let here := r.1.map (fun es => es :: rest)
      let next := floatCompInvExprLoop parseInfo rest
      (here ++ next.1.map (fun ls => r.2 :: ls), r.2 :: next.2.1, next.2.2)

/-- The statement loop of the `*ast.BlockStmt` arm of
`FloatComparisonInverter` (mutators.go:564-585): `AssignStmt` and
`CaseClause` elements have their `Rhs` / guard list processed by
`floatCompInvExprLoop`; any other statement kind is skipped.  The third
component records the early `return`. -/
def floatCompInvStmtLoop (parseInfo : ParseInfo) :
    List Stmt → List (List Stmt) × List Stmt × Bool
  | [] => ([], [], false)
  | s :: rest =>
    match s with
    | .assignStmt m lhs tok rhs =>
      let r := floatCompInvExprLoop parseInfo rhs
      let here := r.1.map (fun rs => Stmt.assignStmt m lhs tok rs :: rest)
      let s2 := Stmt.assignStmt m lhs tok r.2.1
      if r.2.2 then (here, s2 :: rest, true)
      else
        let next := floatCompInvStmtLoop parseInfo rest
        (here ++ next.1.map (fun ls => s2 :: ls), s2 :: next.2.1, next.2.2)
    | .caseClause m gl body =>
      let r := floatCompInvExprLoop parseInfo gl
      let here := r.1.map (fun gs => Stmt.caseClause m gs body :: rest)
      let s2 := Stmt.caseClause m r.2.1 body
      if r.2.2 then (here, s2 :: rest, true)
      else
        let next := floatCompInvStmtLoop parseInfo rest
        (here ++ next.1.map (fun ls => s2 :: ls), s2 :: next.2.1, next.2.2)
    | _ =>
      let next := floatCompInvStmtLoop parseInfo rest
      (next.1.map (fun ls => s :: ls), s :: next.2.1, next.2.2)

/-- `FloatComparisonInverter` (mutators.go:544-602).  The three carrier
arms are mutually exclusive on the node's kind; the `IfStmt` arm applies
no `isBool` gate (see the BUG note in the source). -/
def FloatComparisonInverter : Mutator := fun parseInfo node =>
  if !covered parseInfo node then some ([], node)
  else
    match node with
    | .stmt (.blockStmt m list) =>
      let r := floatCompInvStmtLoop parseInfo list
      some (r.1.map (fun ls => Node.stmt (.blockStmt m ls)),
            .stmt (.blockStmt m r.2.1))
    | .stmt (.ifStmt m cond bodyM body els) =>
      let r := floatComparisonInverter parseInfo cond
      some (r.1.map (fun c => Node.stmt (.ifStmt m c bodyM body els)),
            .stmt (.ifStmt m r.2 bodyM body els))
    | .stmt (.sendStmt m chanE v) =>
      if !isBoolTyped parseInfo v then some ([], node)
      else
        let r := floatComparisonInverter parseInfo v
        some (r.1.map (fun vs => Node.stmt (.sendStmt m chanE vs)),
              .stmt (.sendStmt m chanE r.2))
    | _ => some ([], node)

/-- The operator catalogue `godzilla.Mutators` (mutators.go:14-57),
embedded as an association list. -/
def Mutators : List (String × Desc) :=
  [("voidrm", ⟨VoidCallRemoverMutator, "Removes void function call."⟩),
   ("swapifelse", ⟨SwapIfElse, "Swaps content of if/else statements."⟩),
   ("swapswitch", ⟨SwapSwitchCase, "Swaps switch case conditions."⟩),
   ("condbound", ⟨ConditionalsBoundaryMutator, "Adds or remove an equal sign in comparison operators."⟩),
   ("mathop", ⟨MathMutator, "Swaps various mathematical operators. (eg. + to -)"⟩),
   ("boolop", ⟨BooleanOperatorsMutator, "Changes && to || and vice versa."⟩),
   ("mathopassign", ⟨MathAssignMutator, "Same as the math mutator but for assignements."⟩),
   ("negcond", ⟨NegateConditionalsMutator, "Swaps comparison operators to their inverse (eg. == to !=)"⟩),
   ("floatcompinv", ⟨FloatComparisonInverter, "Invert floating point comparisons. eg. `(f0 == f1)` to `!(f0 != f1)`"⟩),
   ("inspect", ⟨DebugInspect, ""⟩)]

/-!
## The tester (cmd/godzilla/main.go:420-505)

`tester.Test()` serializes the mutated file into the scratch directory,
runs `go build` and then `go test -short` there, and updates the
`result` counters.  We embed one call as a function of the outcomes of
its three fallible steps: whether the file write succeeded
(`os.OpenFile` and `format.Node`, main.go:440-448 — on failure `Test()`
prints a diagnostic and returns with *no* counter incremented), whether
`go build` succeeded, and the `go test -short` exit code.  `killed` is
not a stored counter: the reporter prints `total - alive`.
-/

/-- Outcome of the fallible steps during one `Test()` call: whether
opening and printing the mutant file both succeeded (main.go:440-448),
whether `go build` succeeded, and the `go test -short` exit code as
produced by `getExitCode` (main.go:497-505). -/
structure TestOutcome where
  writeOk : Bool
  compileOk : Bool
  exitCode : Int
  deriving DecidableEq, Repr

/-- The `result` counters (main.go:299-301). -/
structure MutationResult where
  alive : Nat
  total : Nat
  skipped : Nat
  deriving DecidableEq, Repr

/-- One `tester.Test()` call (main.go:437-484): a failed file open or
serialization returns with no counter touched (main.go:440-448); a
failed compile bumps `skipped` and returns before the tests run;
otherwise `total` is bumped, and `alive` additionally exactly when the
test run exits zero. -/
def testerTest (r : MutationResult) (o : TestOutcome) : MutationResult :=
  if !o.writeOk then r
  else if !o.compileOk then { r with skipped := r.skipped + 1 }
  else
    let r1 := { r with total := r.total + 1 }
    if o.exitCode ≠ 0 then r1
    else { r1 with alive := r1.alive + 1 }

/-- A sequence of `Test()` calls folded over the counters. -/
def testerRun (r : MutationResult) : List TestOutcome → MutationResult
  | [] => r
  | o :: os => testerRun (testerTest r o) os

/-- The number of killed mutants as the reporter computes it
(main.go:294): `total - alive`. -/
def killedCount (r : MutationResult) : Nat := r.total - r.alive

/-!
## Package selection (cmd/godzilla/main.go:90-113)

`getRunConfig` looks up `$GOPATH` (exiting non-zero when unset) and then
picks the target package: `if args := flag.Args(); len(args) == 2 { pkg =
args[1] }`, otherwise the working directory must have `$GOPATH` as a
prefix (else exit non-zero) and the package is `wd[len(gopath)+len("/src/"):]`.
We embed the selection as a function of the positional arguments, the
`$GOPATH` value and the working directory; `none` is an abnormal
non-zero termination (`os.Exit(1)`, or the slice-bound panic when
`len(gopath)+5 > len(wd)`).  Go slices by bytes; for the ASCII paths used
here character positions coincide. -/
def getRunConfigPkg (args : List String) (gopath wd : String) : Option String :=
  if args.length == 2 then args[1]?
  else if gopath.toList.isPrefixOf wd.toList then
    if gopath.toList.length + 5 ≤ wd.toList.length then
      some (String.mk (wd.toList.drop (gopath.toList.length + 5)))
    else none
  else none

/-- The zero forms named by the specification: `0`, `00…`, `0.`, `0.0…`,
`.0…` — i.e. the exact-match language `0+(\.0*)? | \.0+`. -/
def specZeroForm (l : List Char) : Bool :=
  match l.span (· = '0') with
  | (zs, rest) =>
    if zs.isEmpty then
      match rest with
      | '.' :: frac => !frac.isEmpty && frac.all (· = '0')
      | _ => false
    else
      match rest with
      | [] => true
      | '.' :: frac => frac.all (· = '0')
      | _ => false

/-- Both operands carry the same floating basic kind (`float32` or
`float64`) in the type map — the eligibility test of the claim for
`floatComparisonInverter`. -/
def sameFloatOperands (parseInfo : ParseInfo) (x y : Expr) : Bool :=
  match parseInfo.typesInfo (exprMeta x).id, parseInfo.typesInfo (exprMeta y).id with
  | some tx, some ty =>
    match tx.type, ty.type with
    | .basic kx, .basic ky =>
      (kx == .float32Kind || kx == .float64Kind) && ky == kx
    | _, _ => false
  | _, _ => false

/-- Claim-side description of the mutants of one carrier expression:
descend through `ParenExpr` and `UnaryExpr(NOT)`, recurse into both
operands of `&&`/`||`, and for each comparison whose two operands have
the same floating type emit the whole expression with that comparison
replaced by `!(lhs op2 rhs)`, `op2` the inverted operator. -/
def specFloatInversions (parseInfo : ParseInfo) : Expr → List Expr
  | .binaryExpr m x op y =>
    match op with
    | .LOR | .LAND =>
      (specFloatInversions parseInfo x).map (fun xs => .binaryExpr m xs op y) ++
        (specFloatInversions parseInfo y).map (fun ys => .binaryExpr m x op ys)
    | .EQL | .LSS | .GTR | .NEQ | .LEQ | .GEQ =>
      if sameFloatOperands parseInfo x y then
        [.unaryExpr noPos .NOT
          (.binaryExpr noPos x ((floatComparisonInverterMap op).getD .otherTok) y)]
      else []
    | _ => []
  | .unaryExpr m op x =>
    if op = .NOT then (specFloatInversions parseInfo x).map (fun xs => .unaryExpr m op xs)
    else []
  | .parenExpr m x => (specFloatInversions parseInfo x).map (fun xs => .parenExpr m xs)
  | .basicLit _ _ _ => []
  | .ident _ _ => []
  | .otherExpr _ => []

/-- Claim-side snapshots for a list of carrier expressions (an
`AssignStmt`'s `Rhs` or a `CaseClause`'s guards): carriers are processed
in order, and a non-boolean-typed carrier stops all processing
(the amended early-`return` behavior). -/
def specCarrierSnapshots (parseInfo : ParseInfo) : List Expr → List (List Expr)
  | [] => []
  | e :: rest =>
    if isBoolTyped parseInfo e then
      (specFloatInversions parseInfo e).map (fun es => es :: rest) ++
        (specCarrierSnapshots parseInfo rest).map (fun ls => e :: ls)
    else []

/-- Claim-side snapshots for the statements of a block carrier:
assignment right-hand sides and case-clause guards are processed in
statement order; an abort inside one statement's expressions (some
non-boolean carrier) stops the remaining statements as well. -/
def specStmtSnapshots (parseInfo : ParseInfo) : List Stmt → List (List Stmt)
  | [] => []
  | s :: rest =>
    match s with
    | .assignStmt m lhs tok rhs =>
      let here := (specCarrierSnapshots parseInfo rhs).map
        (fun rs => Stmt.assignStmt m lhs tok rs :: rest)
      if rhs.all (isBoolTyped parseInfo) then
        here ++ (specStmtSnapshots parseInfo rest).map (fun ls => Stmt.assignStmt m lhs tok rhs :: ls)
      else here
    | .caseClause m gl body =>
      let here := (specCarrierSnapshots parseInfo gl).map
        (fun gs => Stmt.caseClause m gs body :: rest)
      if gl.all (isBoolTyped parseInfo) then
        here ++ (specStmtSnapshots parseInfo rest).map (fun ls => Stmt.caseClause m gl body :: ls)
      else here
    | _ => (specStmtSnapshots parseInfo rest).map (fun ls => s :: ls)

/-- Claim-side mutant for the adjacent pair `(i, (i+1) mod n)` of a
clause list: the switch with the two clause bodies exchanged when at
least one of the two clauses is covered, `none` when both are
uncovered (or a clause is not a case clause). -/
def specSwapAt (parseInfo : ParseInfo) (m bodyM : NodeMeta)
    (clauses : List Stmt) (i : Nat) : Option Node :=
  let j := (i + 1) % clauses.length
  match clauses[i]?, clauses[j]? with
  | some (.caseClause am al ab), some (.caseClause bm bl bb) =>
    if !covered parseInfo (.stmt (.caseClause am al ab)) &&
       !covered parseInfo (.stmt (.caseClause bm bl bb)) then none
    else
      some (.stmt (.switchStmt m bodyM
        ((clauses.set i (.caseClause am al bb)).set j (.caseClause bm bl ab))))
  | _, _ => none

/-- Claim-side snapshots for `SwapSwitchCase` on a clause list: each
adjacent pair `(i, (i+1) mod n)` in order, a snapshot exactly when at
least one of the two clauses is covered. -/
def specSwapSwitchSnapshots (parseInfo : ParseInfo) (m bodyM : NodeMeta)
    (clauses : List Stmt) : List Node :=
  (List.range clauses.length).filterMap (specSwapAt parseInfo m bodyM clauses)

/-! ## Concrete fixtures used by witnesses and counterexamples -/

/-- A profile covering lines 1-100 with positive count and no type facts. -/
def fullCover : ParseInfo := ⟨[⟨1, 1, 100, 200, 1⟩], fun _ => none⟩

/-- A position far outside `fullCover`. -/
def farPos : NodeMeta := ⟨500, 1, 0⟩

def witIf : Stmt :=
  .ifStmt ⟨1, 3, 10⟩ (.ident ⟨1, 6, 11⟩ "c") ⟨2, 1, 12⟩ [] (some (.blockStmt ⟨4, 8, 13⟩ []))

def witIfSwapped : Stmt :=
  .ifStmt ⟨1, 3, 10⟩ (.ident ⟨1, 6, 11⟩ "c") ⟨4, 8, 13⟩ [] (some (.blockStmt ⟨2, 1, 12⟩ []))

/-- Type facts making expression id 7 string-typed. -/
def strInfo : ParseInfo :=
  ⟨[], fun id => if id == 7 then some ⟨.basic .stringKind, false⟩ else none⟩

def strIdent : Expr := .ident ⟨1, 1, 7⟩ "s"

/-- Type facts for the `FloatComparisonInverter` scenarios: id 1 has a
non-basic type, id 2 is boolean, ids 3 and 4 are `float64`. -/
def fcInfo : ParseInfo :=
  ⟨[⟨1, 1, 100, 200, 1⟩], fun id =>
    if id == 1 then some ⟨.nonBasic, false⟩
    else if id == 2 then some ⟨.basic .boolKind, false⟩
    else if id == 3 || id == 4 then some ⟨.basic .float64Kind, false⟩
    else none⟩

/-- A boolean-typed `float64` comparison `a < b`. -/
def fcCmp : Expr := .binaryExpr ⟨2, 10, 2⟩ (.ident ⟨2, 10, 3⟩ "a") .LSS (.ident ⟨2, 14, 4⟩ "b")

/-- A block whose first assignment has a non-boolean right-hand side and
whose second assignment carries the float comparison `fcCmp`. -/
def fcBlock : Stmt :=
  .blockStmt ⟨1, 1, 90⟩
    [.assignStmt ⟨2, 1, 91⟩ [.ident ⟨2, 1, 92⟩ "p"] .ASSIGN [.otherExpr ⟨2, 5, 1⟩],
     .assignStmt ⟨3, 1, 93⟩ [.ident ⟨3, 1, 94⟩ "q"] .ASSIGN [fcCmp]]

/-- Coverage containing only line 1 (the `if` keyword's line): the two
branch blocks at lines 10 and 12 lie outside it. -/
def ifHeadCover : ParseInfo := ⟨[⟨1, 1, 1, 30, 5⟩], fun _ => none⟩

/-- An if/else whose own position is covered by `ifHeadCover` but whose
then block (line 10) and else block (line 12) are not. -/
def ifBranchesUncovered : Stmt :=
  .ifStmt ⟨1, 1, 50⟩ (.ident ⟨1, 4, 51⟩ "c") ⟨10, 1, 52⟩ [.otherStmt ⟨10, 2, 53⟩]
    (some (.blockStmt ⟨12, 8, 54⟩ [.otherStmt ⟨12, 9, 55⟩]))

def witCaseA : Stmt := .caseClause ⟨2, 2, 20⟩ [] [.otherStmt ⟨2, 9, 21⟩]

def witCaseB : Stmt := .caseClause ⟨3, 2, 22⟩ [] [.otherStmt ⟨3, 9, 23⟩]

/-! ## Restoration and characterization lemmas -/

theorem list_swap_writeback {α : Type} {l : List α} {i j : Nat} {a b a2 b2 : α}
    (hi : l[i]? = some a) (hj : l[j]? = some b) :
    (((l.set i a2).set j b2).set i a).set j b = l := by
  have hilen : i < l.length := by
    by_contra hle
    rw [List.getElem?_eq_none (Nat.le_of_not_lt hle)] at hi
    exact Option.noConfusion hi
  have hjlen : j < l.length := by
    by_contra hle
    rw [List.getElem?_eq_none (Nat.le_of_not_lt hle)] at hj
    exact Option.noConfusion hj
  apply List.ext_getElem?
  intro k
  by_cases hkj : j = k
  · subst hkj
    rw [List.getElem?_set, if_pos rfl]
    simp only [List.length_set]
    rw [if_pos hjlen, hj]
  · rw [List.getElem?_set, if_neg hkj]
    by_cases hki : i = k
    · subst hki
      rw [List.getElem?_set, if_pos rfl]
      simp only [List.length_set]
      rw [if_pos hilen, hi]
    · rw [List.getElem?_set, if_neg hki, List.getElem?_set, if_neg hkj,
        List.getElem?_set, if_neg hki]

theorem voidCallRemoverLoop_final (parseInfo : ParseInfo) (m : NodeMeta) :
    ∀ (l : List (Nat × Stmt)) (cur : List Stmt),
      (voidCallRemoverLoop parseInfo m l cur).2 = cur := by
  intro l
  induction l with
  | nil => intro cur; rfl
  | cons p rest ih =>
    intro cur
    obtain ⟨i, s⟩ := p
    cases s with
    | exprStmt m2 x =>
      simp only [voidCallRemoverLoop]
      split <;> simp [ih]
    | _ => simp [voidCallRemoverLoop, ih]

theorem swapSwitchCaseLoop_final (parseInfo : ParseInfo) (m bodyM : NodeMeta) (n : Nat) :
    ∀ (idxs : List Nat) (cur : List Stmt) (r : List Node × List Stmt),
      swapSwitchCaseLoop parseInfo m bodyM n idxs cur = some r → r.2 = cur := by
  intro idxs
  induction idxs with
  | nil =>
    intro cur r h
    simp only [swapSwitchCaseLoop] at h
    cases h
    rfl
  | cons i rest ih =>
    intro cur r h
    simp only [swapSwitchCaseLoop] at h
    split at h
    case h_2 => exact Option.noConfusion h
    case h_1 am al ab bm bl bb hi hj =>
      split at h
      · exact ih cur r h
      · split at h
        case h_1 => exact Option.noConfusion h
        case h_2 next hnext =>
          cases h
          have h2 := ih _ next hnext
          simp only [h2]
          exact list_swap_writeback hi hj

theorem floatComparisonInverter_final (parseInfo : ParseInfo) :
    ∀ e : Expr, (floatComparisonInverter parseInfo e).2 = e := by
  intro e
  induction e with
  | binaryExpr m x op y ihx ihy =>
    cases op <;> simp only [floatComparisonInverter, ihx, ihy] <;> (repeat' split) <;> rfl
  | unaryExpr m op x ih =>
    simp only [floatComparisonInverter]
    split
    · rfl
    · simp only [ih]
  | parenExpr m x ih => simp only [floatComparisonInverter, ih]
  | basicLit m kind value => rfl
  | ident m name => rfl
  | otherExpr m => rfl

theorem floatCompInvExprLoop_final (parseInfo : ParseInfo) :
    ∀ l : List Expr, (floatCompInvExprLoop parseInfo l).2.1 = l := by
  intro l
  induction l with
  | nil => rfl
  | cons e rest ih =>
    simp only [floatCompInvExprLoop]
    split
    · rfl
    · simp only [floatComparisonInverter_final, ih]

theorem floatCompInvStmtLoop_final (parseInfo : ParseInfo) :
    ∀ l : List Stmt, (floatCompInvStmtLoop parseInfo l).2.1 = l := by
  intro l
  induction l with
  | nil => rfl
  | cons s rest ih =>
    cases s <;>
      simp only [floatCompInvStmtLoop, floatCompInvExprLoop_final, ih] <;>
      split <;>
      simp only [floatCompInvExprLoop_final, ih]

theorem VoidCallRemoverMutator_restores (parseInfo : ParseInfo) (node : Node)
    (r : List Node × Node) (h : VoidCallRemoverMutator parseInfo node = some r) :
    r.2 = node := by
  simp only [VoidCallRemoverMutator] at h
  split at h
  · cases h; rfl
  · split at h
    · cases h; simp [voidCallRemoverLoop_final]
    · cases h; rfl

theorem SwapSwitchCase_restores (parseInfo : ParseInfo) (node : Node)
    (r : List Node × Node) (h : SwapSwitchCase parseInfo node = some r) :
    r.2 = node := by
  simp only [SwapSwitchCase] at h
  split at h
  · cases h; rfl
  · split at h
    · split at h
      · cases h; rfl
      · split at h
        case h_1 => exact Option.noConfusion h
        case h_2 r2 hr2 =>
          cases h
          simp only [swapSwitchCaseLoop_final _ _ _ _ _ _ _ hr2]
    · cases h; rfl

theorem SwapIfElse_restores (parseInfo : ParseInfo) (node : Node)
    (r : List Node × Node) (h : SwapIfElse parseInfo node = some r) :
    r.2 = node := by
  simp only [SwapIfElse] at h
  repeat' split at h
  all_goals (cases h; rfl)

theorem ConditionalsBoundaryMutator_restores (parseInfo : ParseInfo) (node : Node)
    (r : List Node × Node) (h : ConditionalsBoundaryMutator parseInfo node = some r) :
    r.2 = node := by
  simp only [ConditionalsBoundaryMutator] at h
  repeat' split at h
  all_goals (cases h; rfl)

theorem MathMutator_restores (parseInfo : ParseInfo) (node : Node)
    (r : List Node × Node) (h : MathMutator parseInfo node = some r) :
    r.2 = node := by
  simp only [MathMutator] at h
  repeat' split at h
  all_goals (cases h; rfl)

theorem MathAssignMutator_restores (parseInfo : ParseInfo) (node : Node)
    (r : List Node × Node) (h : MathAssignMutator parseInfo node = some r) :
    r.2 = node := by
  simp only [MathAssignMutator] at h
  repeat' split at h
  all_goals first
    | (cases h; rfl)
    | exact Option.noConfusion h

theorem BooleanOperatorsMutator_restores (parseInfo : ParseInfo) (node : Node)
    (r : List Node × Node) (h : BooleanOperatorsMutator parseInfo node = some r) :
    r.2 = node := by
  simp only [BooleanOperatorsMutator] at h
  repeat' split at h
  all_goals (cases h; rfl)

theorem NegateConditionalsMutator_restores (parseInfo : ParseInfo) (node : Node)
    (r : List Node × Node) (h : NegateConditionalsMutator parseInfo node = some r) :
    r.2 = node := by
  simp only [NegateConditionalsMutator] at h
  repeat' split at h
  all_goals (cases h; rfl)

theorem DebugInspect_restores (parseInfo : ParseInfo) (node : Node)
    (r : List Node × Node) (h : DebugInspect parseInfo node = some r) :
    r.2 = node := by
  cases h; rfl

theorem FloatComparisonInverter_restores (parseInfo : ParseInfo) (node : Node)
    (r : List Node × Node) (h : FloatComparisonInverter parseInfo node = some r) :
    r.2 = node := by
  simp only [FloatComparisonInverter] at h
  split at h
  · cases h; rfl
  · split at h
    · cases h; simp [floatCompInvStmtLoop_final]
    · cases h; simp [floatComparisonInverter_final]
    · split at h
      · cases h; rfl
      · cases h; simp [floatComparisonInverter_final]
    · cases h; rfl

theorem floatComparisonInverter_spec (parseInfo : ParseInfo) :
    ∀ e : Expr, floatComparisonInverter parseInfo e = (specFloatInversions parseInfo e, e) := by
  intro e
  induction e with
  | binaryExpr m x op y ihx ihy =>
    cases op <;> simp only [floatComparisonInverter, specFloatInversions, ihx, ihy] <;> try rfl
    all_goals
      rcases hx : parseInfo.typesInfo (exprMeta x).id with _ | tx <;>
        rcases hy : parseInfo.typesInfo (exprMeta y).id with _ | ty <;>
        simp only [sameFloatOperands, hx, hy] <;>
        first
          | rfl
          | (rcases htx : tx.type with kx | _ <;>
             simp only [htx] <;>
             first
               | rfl
               | (simp_all [floatComparisonInverterMap]; done)
               | (rcases hty : ty.type with ky | _ <;>
                  simp only [hty] <;>
                  first
                    | rfl
                    | (simp_all [floatComparisonInverterMap]; done)
                    | (cases kx <;> cases ky <;> simp_all [floatComparisonInverterMap]; done)))
  | unaryExpr m op x ih =>
    simp only [floatComparisonInverter, specFloatInversions]
    split
    case isTrue h => simp [h]
    case isFalse h => simp [ih, not_not.mp h]
  | parenExpr m x ih => simp [floatComparisonInverter, specFloatInversions, ih]
  | basicLit m kind value => rfl
  | ident m name => rfl
  | otherExpr m => rfl

theorem floatCompInvExprLoop_spec (parseInfo : ParseInfo) :
    ∀ l : List Expr,
      floatCompInvExprLoop parseInfo l
        = (specCarrierSnapshots parseInfo l, l, !l.all (isBoolTyped parseInfo)) := by
  intro l
  induction l with
  | nil => rfl
  | cons e rest ih =>
    by_cases hb : isBoolTyped parseInfo e
    · simp [floatCompInvExprLoop, specCarrierSnapshots, hb, floatComparisonInverter_spec, ih]
    · simp [floatCompInvExprLoop, specCarrierSnapshots, hb]

theorem floatCompInvStmtLoop_spec (parseInfo : ParseInfo) :
    ∀ l : List Stmt,
      (floatCompInvStmtLoop parseInfo l).1 = specStmtSnapshots parseInfo l := by
  intro l
  induction l with
  | nil => rfl
  | cons s rest ih =>
    cases s <;>
      simp only [floatCompInvStmtLoop, specStmtSnapshots, floatCompInvExprLoop_spec, ih] <;>
      try rfl
    case assignStmt m lhs tok rhs =>
      cases hall : rhs.all (isBoolTyped parseInfo) <;> simp [hall, ih]
    case caseClause m gl body =>
      cases hall : gl.all (isBoolTyped parseInfo) <;> simp [hall, ih]

theorem swapSwitchCaseLoop_spec (parseInfo : ParseInfo) (m bodyM : NodeMeta) (orig : List Stmt)
    (hcc : ∀ s ∈ orig, ∃ cm cl cb, s = Stmt.caseClause cm cl cb) :
    ∀ idxs : List Nat, (∀ i ∈ idxs, i < orig.length) →
      swapSwitchCaseLoop parseInfo m bodyM orig.length idxs orig
        = some (idxs.filterMap (specSwapAt parseInfo m bodyM orig), orig) := by
  intro idxs
  induction idxs with
  | nil => intro _; rfl
  | cons i rest ih =>
    intro hlt
    have hi : i < orig.length := hlt i (List.mem_cons_self i rest)
    have hn : 0 < orig.length := Nat.lt_of_le_of_lt (Nat.zero_le i) hi
    have hjlt : (i + 1) % orig.length < orig.length := Nat.mod_lt _ hn
    have hsi := List.getElem?_eq_getElem hi
    have hsj := List.getElem?_eq_getElem hjlt
    obtain ⟨am, al, ab, hsa⟩ := hcc _ (List.getElem?_mem hsi)
    obtain ⟨bm, bl, bb, hsb⟩ := hcc _ (List.getElem?_mem hsj)
    rw [hsa] at hsi
    rw [hsb] at hsj
    have ihr := ih (fun k hk => hlt k (List.mem_cons_of_mem _ hk))
    simp only [swapSwitchCaseLoop, hsi, hsj]
    by_cases hskip :
        (!covered parseInfo (.stmt (.caseClause am al ab)) &&
          !covered parseInfo (.stmt (.caseClause bm bl bb))) = true
    · simp only [hskip, if_pos, ihr, List.filterMap_cons, specSwapAt, hsi, hsj]
    · simp only [Bool.not_eq_true] at hskip
      simp only [hskip, Bool.false_eq_true, if_false,
        list_swap_writeback hsi hsj, ihr, List.filterMap_cons, specSwapAt, hsi, hsj]

/-! ## Remaining helper lemmas -/

theorem filterMap_length_of_all_isSome {α β : Type} (f : α → Option β) :
    ∀ l : List α, (∀ a ∈ l, (f a).isSome) → (l.filterMap f).length = l.length := by
  intro l
  induction l with
  | nil => intro _; rfl
  | cons a rest ih =>
    intro h
    have ha := h a (List.mem_cons_self a rest)
    cases hf : f a with
    | none => rw [hf] at ha; exact absurd ha (by simp)
    | some b =>
      simp [List.filterMap_cons, hf, ih (fun x hx => h x (List.mem_cons_of_mem _ hx))]

theorem isZero_int_zero (mm : NodeMeta) : isZero (.basicLit mm .INT "0") = true := rfl

theorem isOne_int_one (mm : NodeMeta) : isOne (.basicLit mm .INT "1") = true := rfl

theorem covered_eq_false_of_outside (parseInfo : ParseInfo) (node : Node)
    (houtside : ∀ block ∈ parseInfo.coveredBlocks,
      inBlockRange block (nodeMeta node).line (nodeMeta node).col = false) :
    covered parseInfo node = false := by
  simp only [covered, List.any_eq_false]
  intro b hb
  simp [houtside b hb]

theorem testerTest_alive_le (r : MutationResult) (o : TestOutcome)
    (h : r.alive ≤ r.total) : (testerTest r o).alive ≤ (testerTest r o).total := by
  unfold testerTest
  split
  · exact h
  · split
    · exact h
    · split <;> simp <;> omega

theorem testerRun_alive_le :
    ∀ (os : List TestOutcome) (r : MutationResult), r.alive ≤ r.total →
      (testerRun r os).alive ≤ (testerRun r os).total := by
  intro os
  induction os with
  | nil => intro r h; exact h
  | cons o os ih => intro r h; exact ih _ (testerTest_alive_le r o h)

theorem testerTest_count (r : MutationResult) (o : TestOutcome) :
    (testerTest r o).total + (testerTest r o).skipped
      = r.total + r.skipped + (if o.writeOk then 1 else 0) := by
  rcases o with ⟨w, c, e⟩
  cases w
  · simp [testerTest]
  · cases c
    · simp [testerTest]
      omega
    · by_cases he : e = 0 <;> simp [testerTest, he] <;> omega

theorem testerRun_count :
    ∀ (os : List TestOutcome) (r : MutationResult),
      (testerRun r os).total + (testerRun r os).skipped
        = r.total + r.skipped + (os.filter (fun o => o.writeOk)).length := by
  intro os
  induction os with
  | nil => intro r; rfl
  | cons o os ih =>
    intro r
    have h1 := ih (testerTest r o)
    have h2 := testerTest_count r o
    cases hw : o.writeOk <;>
      simp only [testerRun, List.filter_cons, hw] <;>
      simp [hw] at h2 <;>
      simp <;>
      omega

/-! ## The claims -/

/-- C1: for every mutation operator in the catalogue and every AST node,
whenever the operator returns (with a tester that does nothing but
observe), the tree reachable from the node is exactly what it was before
the call: the final tree produced by the embedded operator equals the
input node. -/
theorem C1_every_operator_restores_the_tree (nd : String × Desc) (hmem : nd ∈ Mutators)
    (parseInfo : ParseInfo) (node : Node) (r : List Node × Node)
    (h : nd.2.M parseInfo node = some r) : r.2 = node := by
  simp only [Mutators, List.mem_cons, List.not_mem_nil, or_false] at hmem
  rcases hmem with rfl | rfl | rfl | rfl | rfl | rfl | rfl | rfl | rfl | rfl <;>
    first
      | exact VoidCallRemoverMutator_restores parseInfo node r h
      | exact SwapIfElse_restores parseInfo node r h
      | exact SwapSwitchCase_restores parseInfo node r h
      | exact ConditionalsBoundaryMutator_restores parseInfo node r h
      | exact MathMutator_restores parseInfo node r h
      | exact BooleanOperatorsMutator_restores parseInfo node r h
      | exact MathAssignMutator_restores parseInfo node r h
      | exact NegateConditionalsMutator_restores parseInfo node r h
      | exact FloatComparisonInverter_restores parseInfo node r h
      | exact DebugInspect_restores parseInfo node r h

/-- Witness for C1 at the catalogue entry `swapifelse` and a concrete
covered if/else node. -/
theorem C1_every_operator_restores_the_tree_witness :
    ("swapifelse", (⟨SwapIfElse, "Swaps content of if/else statements."⟩ : Desc)) ∈ Mutators
    ∧ SwapIfElse fullCover (.stmt witIf) = some ([.stmt witIfSwapped], .stmt witIf)
    ∧ (([Node.stmt witIfSwapped], Node.stmt witIf) : List Node × Node).2 = .stmt witIf :=
  ⟨by simp [Mutators], rfl,
   C1_every_operator_restores_the_tree
     ("swapifelse", ⟨SwapIfElse, "Swaps content of if/else statements."⟩)
     (by simp [Mutators]) fullCover (.stmt witIf) ([.stmt witIfSwapped], .stmt witIf) rfl⟩

/-- C2 (counterexample to the claim as stated): a `Test()` call whose
file open or serialization fails (main.go:440-448) increments no
counter at all — it settles the mutant in none of the three claimed
ways, and after that one invocation `killed + alive + skipped` is `0`,
not the number of invocations. -/
theorem C2_write_failure_not_counted :
    testerTest ⟨0, 0, 0⟩ ⟨false, true, 0⟩ = ⟨0, 0, 0⟩
    ∧ killedCount (testerRun ⟨0, 0, 0⟩ [⟨false, true, 0⟩])
        + (testerRun ⟨0, 0, 0⟩ [⟨false, true, 0⟩]).alive
        + (testerRun ⟨0, 0, 0⟩ [⟨false, true, 0⟩]).skipped = 0
    ∧ ([(⟨false, true, 0⟩ : TestOutcome)]).length = 1 :=
  ⟨rfl, rfl, rfl⟩

/-- C2 as amended: a `Test()` call whose file open or serialization
fails (main.go:440-448) returns with no counter incremented; every
other call settles the mutant in exactly one way — a failed compile
bumps only `skipped` without running tests, otherwise `total` is bumped
and `alive` exactly when the external test run exits zero.  Hence after
any sequence of calls starting from zero counters, `total = alive +
killed` (with `killed` the reporter's `total - alive`), and `killed +
alive + skipped` is the number of calls whose serialization
succeeded. -/
theorem C2_tester_outcome_accounting (outcomes : List TestOutcome) :
    ((testerRun ⟨0, 0, 0⟩ outcomes).total
        = (testerRun ⟨0, 0, 0⟩ outcomes).alive + killedCount (testerRun ⟨0, 0, 0⟩ outcomes)
      ∧ killedCount (testerRun ⟨0, 0, 0⟩ outcomes) + (testerRun ⟨0, 0, 0⟩ outcomes).alive
          + (testerRun ⟨0, 0, 0⟩ outcomes).skipped
          = (outcomes.filter (fun o => o.writeOk)).length)
    ∧ ∀ (r : MutationResult) (o : TestOutcome),
        (o.writeOk = false → testerTest r o = r)
        ∧ (o.writeOk = true → o.compileOk = false →
            testerTest r o = { r with skipped := r.skipped + 1 })
        ∧ (o.writeOk = true → o.compileOk = true → o.exitCode ≠ 0 →
            testerTest r o = { r with total := r.total + 1 })
        ∧ (o.writeOk = true → o.compileOk = true → o.exitCode = 0 →
            testerTest r o = { r with alive := r.alive + 1, total := r.total + 1 }) := by
  constructor
  · have hle := testerRun_alive_le outcomes ⟨0, 0, 0⟩ (Nat.le_refl 0)
    have hct := testerRun_count outcomes ⟨0, 0, 0⟩
    simp only [Nat.add_zero, Nat.zero_add] at hct hle ⊢
    unfold killedCount
    omega
  · intro r o
    refine ⟨?_, ?_, ?_, ?_⟩
    · intro h0; simp [testerTest, h0]
    · intro h0 h1; simp [testerTest, h0, h1]
    · intro h0 h1 h2; simp [testerTest, h0, h1, h2]
    · intro h0 h1 h2; simp [testerTest, h0, h1, h2]

/-- Witness for the amended C2: a write failure leaves the counters
untouched; a compile failure bumps only `skipped`; a killing run bumps
only `total`; a surviving run bumps `total` and `alive`. -/
theorem C2_tester_outcome_accounting_witness :
    testerTest ⟨1, 2, 3⟩ ⟨false, true, 0⟩ = ⟨1, 2, 3⟩
    ∧ testerTest ⟨1, 2, 3⟩ ⟨true, false, 7⟩ = ⟨1, 2, 4⟩
    ∧ testerTest ⟨1, 2, 3⟩ ⟨true, true, 5⟩ = ⟨1, 3, 3⟩
    ∧ testerTest ⟨1, 2, 3⟩ ⟨true, true, 0⟩ = ⟨2, 3, 3⟩ :=
  ⟨((C2_tester_outcome_accounting []).2 ⟨1, 2, 3⟩ ⟨false, true, 0⟩).1 rfl,
   ((C2_tester_outcome_accounting []).2 ⟨1, 2, 3⟩ ⟨true, false, 7⟩).2.1 rfl rfl,
   ((C2_tester_outcome_accounting []).2 ⟨1, 2, 3⟩ ⟨true, true, 5⟩).2.2.1 rfl rfl (by decide),
   ((C2_tester_outcome_accounting []).2 ⟨1, 2, 3⟩ ⟨true, true, 0⟩).2.2.2 rfl rfl rfl⟩

/-- C3 (code bug): `isZero` is meant to accept exactly the textual zero
forms, but the mis-grouped pattern `^(0+(\.0*|))|(\.0+)$` combined with
unanchored `regexp.Match` also accepts any value that merely starts with
`0` (such as the hex literal `0x1F`) or ends in `.0…` (such as `1.0`),
while the zero forms of the specification reject them. -/
theorem C3_isZero_accepts_nonzero_literals :
    isZero (.basicLit noPos .FLOAT "1.0") = true
    ∧ specZeroForm "1.0".toList = false
    ∧ isZero (.basicLit noPos .INT "0x1F") = true
    ∧ specZeroForm "0x1F".toList = false
    ∧ isZero (.basicLit noPos .INT "0") = true
    ∧ specZeroForm "0".toList = true
    ∧ isZero (.basicLit noPos .FLOAT "0.00") = true
    ∧ specZeroForm "0.00".toList = true := by
  refine ⟨rfl, by decide, rfl, by decide, rfl, by decide, rfl, by decide⟩

/-- C4: `MathMutator` emits no mutant — the tester snapshot list is
empty and the tree unchanged — for `x + 0`, `0 + x`, `x - 0`, `0 - x`,
`x * 1`, `1 * x`, `x / 1`, and `s + t` with string-typed `s` (whether or
not the node is covered, hence in particular when it is). -/
theorem C4_mathmutator_literal_gating (parseInfo : ParseInfo) (m mz : NodeMeta)
    (x s t : Expr) :
    MathMutator parseInfo (.expr (.binaryExpr m x .ADD (.basicLit mz .INT "0")))
      = some ([], .expr (.binaryExpr m x .ADD (.basicLit mz .INT "0")))
    ∧ MathMutator parseInfo (.expr (.binaryExpr m (.basicLit mz .INT "0") .ADD x))
      = some ([], .expr (.binaryExpr m (.basicLit mz .INT "0") .ADD x))
    ∧ MathMutator parseInfo (.expr (.binaryExpr m x .SUB (.basicLit mz .INT "0")))
      = some ([], .expr (.binaryExpr m x .SUB (.basicLit mz .INT "0")))
    ∧ MathMutator parseInfo (.expr (.binaryExpr m (.basicLit mz .INT "0") .SUB x))
      = some ([], .expr (.binaryExpr m (.basicLit mz .INT "0") .SUB x))
    ∧ MathMutator parseInfo (.expr (.binaryExpr m x .MUL (.basicLit mz .INT "1")))
      = some ([], .expr (.binaryExpr m x .MUL (.basicLit mz .INT "1")))
    ∧ MathMutator parseInfo (.expr (.binaryExpr m (.basicLit mz .INT "1") .MUL x))
      = some ([], .expr (.binaryExpr m (.basicLit mz .INT "1") .MUL x))
    ∧ MathMutator parseInfo (.expr (.binaryExpr m x .QUO (.basicLit mz .INT "1")))
      = some ([], .expr (.binaryExpr m x .QUO (.basicLit mz .INT "1")))
    ∧ (isString parseInfo s = true →
        MathMutator parseInfo (.expr (.binaryExpr m s .ADD t))
          = some ([], .expr (.binaryExpr m s .ADD t))) := by
  refine ⟨?_, ?_, ?_, ?_, ?_, ?_, ?_, fun hs => ?_⟩ <;>
    simp [MathMutator, mathMutatorTable, isZero_int_zero, isOne_int_one, Bool.or_true, *]

/-- Witness for C4 at a concretely string-typed left operand. -/
theorem C4_mathmutator_literal_gating_witness :
    isString strInfo strIdent = true
    ∧ MathMutator strInfo (.expr (.binaryExpr noPos strIdent .ADD (.otherExpr farPos)))
      = some ([], .expr (.binaryExpr noPos strIdent .ADD (.otherExpr farPos))) :=
  ⟨rfl,
   (C4_mathmutator_literal_gating strInfo noPos noPos (.otherExpr farPos) strIdent
     (.otherExpr farPos)).2.2.2.2.2.2.2 rfl⟩

/-- C5: every operator in the catalogue, applied to a node whose
position lies outside every covered block, returns without invoking the
tester and without touching the tree. -/
theorem C5_uncovered_node_produces_no_mutant (nd : String × Desc) (hmem : nd ∈ Mutators)
    (parseInfo : ParseInfo) (node : Node)
    (houtside : ∀ block ∈ parseInfo.coveredBlocks,
      inBlockRange block (nodeMeta node).line (nodeMeta node).col = false) :
    nd.2.M parseInfo node = some ([], node) := by
  have hcov := covered_eq_false_of_outside parseInfo node houtside
  simp only [Mutators, List.mem_cons, List.not_mem_nil, or_false] at hmem
  rcases hmem with rfl | rfl | rfl | rfl | rfl | rfl | rfl | rfl | rfl | rfl <;>
    simp [VoidCallRemoverMutator, SwapIfElse, SwapSwitchCase, ConditionalsBoundaryMutator,
      MathMutator, BooleanOperatorsMutator, MathAssignMutator, NegateConditionalsMutator,
      FloatComparisonInverter, DebugInspect, Desc.M, hcov]

/-- Witness for C5 at the `mathop` entry and a node at line 500, outside
the single covered block of `fullCover`. -/
theorem C5_uncovered_node_produces_no_mutant_witness :
    ("mathop", (⟨MathMutator, "Swaps various mathematical operators. (eg. + to -)"⟩ : Desc)) ∈ Mutators
    ∧ (∀ block ∈ fullCover.coveredBlocks,
        inBlockRange block (nodeMeta (.stmt (.otherStmt farPos))).line
          (nodeMeta (.stmt (.otherStmt farPos))).col = false)
    ∧ MathMutator fullCover (.stmt (.otherStmt farPos)) = some ([], .stmt (.otherStmt farPos)) :=
  ⟨by simp [Mutators], by decide,
   C5_uncovered_node_produces_no_mutant
     ("mathop", ⟨MathMutator, "Swaps various mathematical operators. (eg. + to -)"⟩)
     (by simp [Mutators]) fullCover (.stmt (.otherStmt farPos)) (by decide)⟩

/-- C6 (code bug): on an if/else whose own position is covered but whose
then block and else block are both uncovered, `SwapIfElse` still swaps
and invokes the tester once — the second coverage check re-tests the if
statement itself (already known covered from the entry gate) instead of
its then block, so the intended "neither branch is covered" skip never
fires. -/
theorem C6_swapifelse_skip_check_is_dead :
    covered ifHeadCover (.stmt ifBranchesUncovered) = true
    ∧ covered ifHeadCover (.stmt (.blockStmt ⟨10, 1, 52⟩ [.otherStmt ⟨10, 2, 53⟩])) = false
    ∧ covered ifHeadCover (.stmt (.blockStmt ⟨12, 8, 54⟩ [.otherStmt ⟨12, 9, 55⟩])) = false
    ∧ SwapIfElse ifHeadCover (.stmt ifBranchesUncovered)
        = some ([.stmt (.ifStmt ⟨1, 1, 50⟩ (.ident ⟨1, 4, 51⟩ "c") ⟨12, 8, 54⟩
                  [.otherStmt ⟨12, 9, 55⟩]
                  (some (.blockStmt ⟨10, 1, 52⟩ [.otherStmt ⟨10, 2, 53⟩])))],
               .stmt ifBranchesUncovered) :=
  ⟨rfl, rfl, rfl, rfl⟩

/-- C9 (code bug): the package-selection logic of `getRunConfig` only
uses a positional argument when there are exactly two of them (`pkg =
args[1]`), so a single package argument is silently ignored and the
package is derived from the working directory instead; with no argument
the working-directory derivation applies, and a directory outside
`$GOPATH` exits non-zero. -/
theorem C9_single_package_argument_ignored :
    getRunConfigPkg ["github.com/user/pkg"] "/go" "/go/src/other" = some "other"
    ∧ getRunConfigPkg [] "/go" "/go/src/other" = some "other"
    ∧ getRunConfigPkg [] "/go" "/home/elsewhere" = none
    ∧ getRunConfigPkg ["first/pkg", "second/pkg"] "/go" "/go/src/other" = some "second/pkg" :=
  ⟨by decide, by decide, by decide, by decide⟩

/-- C10: for the three operator-table mutators, the single tester
snapshot differs from the node only in the `Op` field — metadata
(positions) and both operand subtrees are unchanged — and the operator
returns the original node. -/
theorem C10_only_op_field_mutated (parseInfo : ParseInfo) (m : NodeMeta) (x y : Expr)
    (op op2 : Tok)
    (hcov : covered parseInfo (.expr (.binaryExpr m x op y)) = true) :
    (conditionalsBoundaryMutatorTable op = some op2 →
      ConditionalsBoundaryMutator parseInfo (.expr (.binaryExpr m x op y))
        = some ([.expr (.binaryExpr m x op2 y)], .expr (.binaryExpr m x op y)))
    ∧ (booleanMutatorTable op = some op2 →
        BooleanOperatorsMutator parseInfo (.expr (.binaryExpr m x op y))
          = some ([.expr (.binaryExpr m x op2 y)], .expr (.binaryExpr m x op y)))
    ∧ (negateConditionalsMutatorTable op = some op2 →
        NegateConditionalsMutator parseInfo (.expr (.binaryExpr m x op y))
          = some ([.expr (.binaryExpr m x op2 y)], .expr (.binaryExpr m x op y))) := by
  refine ⟨?_, ?_, ?_⟩ <;> intro ht <;>
    simp [ConditionalsBoundaryMutator, BooleanOperatorsMutator, NegateConditionalsMutator,
      hcov, ht]

/-- Witness for C10: the three mutators at `<`, `&&` and `==`. -/
theorem C10_only_op_field_mutated_witness :
    covered fullCover (.expr (.binaryExpr ⟨1, 5, 30⟩ (.ident ⟨1, 5, 31⟩ "a") .LSS (.ident ⟨1, 9, 32⟩ "b"))) = true
    ∧ conditionalsBoundaryMutatorTable .LSS = some .LEQ
    ∧ ConditionalsBoundaryMutator fullCover
        (.expr (.binaryExpr ⟨1, 5, 30⟩ (.ident ⟨1, 5, 31⟩ "a") .LSS (.ident ⟨1, 9, 32⟩ "b")))
        = some ([.expr (.binaryExpr ⟨1, 5, 30⟩ (.ident ⟨1, 5, 31⟩ "a") .LEQ (.ident ⟨1, 9, 32⟩ "b"))],
                .expr (.binaryExpr ⟨1, 5, 30⟩ (.ident ⟨1, 5, 31⟩ "a") .LSS (.ident ⟨1, 9, 32⟩ "b")))
    ∧ BooleanOperatorsMutator fullCover
        (.expr (.binaryExpr ⟨1, 5, 30⟩ (.ident ⟨1, 5, 31⟩ "a") .LAND (.ident ⟨1, 9, 32⟩ "b")))
        = some ([.expr (.binaryExpr ⟨1, 5, 30⟩ (.ident ⟨1, 5, 31⟩ "a") .LOR (.ident ⟨1, 9, 32⟩ "b"))],
                .expr (.binaryExpr ⟨1, 5, 30⟩ (.ident ⟨1, 5, 31⟩ "a") .LAND (.ident ⟨1, 9, 32⟩ "b")))
    ∧ NegateConditionalsMutator fullCover
        (.expr (.binaryExpr ⟨1, 5, 30⟩ (.ident ⟨1, 5, 31⟩ "a") .EQL (.ident ⟨1, 9, 32⟩ "b")))
        = some ([.expr (.binaryExpr ⟨1, 5, 30⟩ (.ident ⟨1, 5, 31⟩ "a") .NEQ (.ident ⟨1, 9, 32⟩ "b"))],
                .expr (.binaryExpr ⟨1, 5, 30⟩ (.ident ⟨1, 5, 31⟩ "a") .EQL (.ident ⟨1, 9, 32⟩ "b"))) :=
  ⟨rfl, rfl,
   (C10_only_op_field_mutated fullCover ⟨1, 5, 30⟩ (.ident ⟨1, 5, 31⟩ "a") (.ident ⟨1, 9, 32⟩ "b")
     .LSS .LEQ rfl).1 rfl,
   (C10_only_op_field_mutated fullCover ⟨1, 5, 30⟩ (.ident ⟨1, 5, 31⟩ "a") (.ident ⟨1, 9, 32⟩ "b")
     .LAND .LOR rfl).2.1 rfl,
   (C10_only_op_field_mutated fullCover ⟨1, 5, 30⟩ (.ident ⟨1, 5, 31⟩ "a") (.ident ⟨1, 9, 32⟩ "b")
     .EQL .NEQ rfl).2.2 rfl⟩

/-- C7 (counterexample): in a covered block whose first assignment has a
non-boolean right-hand side, a later assignment carrying a boolean-typed
`float64` comparison is never reached — the mutator returns early and
the tester is not invoked at all, against the claim's "invokes the
tester exactly once" for that carrier. -/
theorem C7_later_carrier_skipped_after_non_bool :
    covered fcInfo (.stmt fcBlock) = true
    ∧ isBoolTyped fcInfo fcCmp = true
    ∧ sameFloatOperands fcInfo (.ident ⟨2, 10, 3⟩ "a") (.ident ⟨2, 14, 4⟩ "b") = true
    ∧ isBoolTyped fcInfo (.otherExpr ⟨2, 5, 1⟩) = false
    ∧ FloatComparisonInverter fcInfo (.stmt fcBlock) = some ([], .stmt fcBlock) :=
  ⟨rfl, rfl, rfl, rfl, rfl⟩

/-- C7 as amended: on a covered carrier node, `FloatComparisonInverter`
invokes the tester exactly once per eligible float comparison — with the
comparison replaced by `!(lhs op2 rhs)` and restored afterwards — for
the carriers it processes: all assignment right-hand sides and case
guards of a block in order *until the first non-boolean-typed one*,
which aborts the rest of the block; the if condition unconditionally;
and the send value when boolean-typed. -/
theorem C7_processed_carriers_inverted (parseInfo : ParseInfo) (m : NodeMeta) :
    (∀ list : List Stmt, covered parseInfo (.stmt (.blockStmt m list)) = true →
      FloatComparisonInverter parseInfo (.stmt (.blockStmt m list))
        = some ((specStmtSnapshots parseInfo list).map (fun ls => Node.stmt (.blockStmt m ls)),
                .stmt (.blockStmt m list)))
    ∧ (∀ (cond : Expr) (bodyM : NodeMeta) (body : List Stmt) (els : Option Stmt),
        covered parseInfo (.stmt (.ifStmt m cond bodyM body els)) = true →
        FloatComparisonInverter parseInfo (.stmt (.ifStmt m cond bodyM body els))
          = some ((specFloatInversions parseInfo cond).map
                    (fun c => Node.stmt (.ifStmt m c bodyM body els)),
                  .stmt (.ifStmt m cond bodyM body els)))
    ∧ (∀ chanE v : Expr,
        covered parseInfo (.stmt (.sendStmt m chanE v)) = true →
        FloatComparisonInverter parseInfo (.stmt (.sendStmt m chanE v))
          = some ((if isBoolTyped parseInfo v then
                     (specFloatInversions parseInfo v).map
                       (fun vs => Node.stmt (.sendStmt m chanE vs))
                   else []),
                  .stmt (.sendStmt m chanE v))) := by
  refine ⟨?_, ?_, ?_⟩
  · intro list hcov
    simp [FloatComparisonInverter, hcov, floatCompInvStmtLoop_spec,
      floatCompInvStmtLoop_final]
  · intro cond bodyM body els hcov
    simp [FloatComparisonInverter, hcov, floatComparisonInverter_spec]
  · intro chanE v hcov
    by_cases hb : isBoolTyped parseInfo v <;>
      simp [FloatComparisonInverter, hcov, hb, floatComparisonInverter_spec]

/-- Witness for the amended C7: an if statement whose condition is the
`float64` comparison `a < b` yields exactly one mutant, `!(a >= b)`. -/
theorem C7_processed_carriers_inverted_witness :
    covered fcInfo (.stmt (.ifStmt ⟨5, 1, 80⟩ fcCmp ⟨5, 9, 81⟩ [] none)) = true
    ∧ FloatComparisonInverter fcInfo (.stmt (.ifStmt ⟨5, 1, 80⟩ fcCmp ⟨5, 9, 81⟩ [] none))
        = some ((specFloatInversions fcInfo fcCmp).map
                  (fun c => Node.stmt (.ifStmt ⟨5, 1, 80⟩ c ⟨5, 9, 81⟩ [] none)),
                .stmt (.ifStmt ⟨5, 1, 80⟩ fcCmp ⟨5, 9, 81⟩ [] none))
    ∧ specFloatInversions fcInfo fcCmp
        = [.unaryExpr noPos .NOT
            (.binaryExpr noPos (.ident ⟨2, 10, 3⟩ "a") .GEQ (.ident ⟨2, 14, 4⟩ "b"))] :=
  ⟨rfl,
   (C7_processed_carriers_inverted fcInfo ⟨5, 1, 80⟩).2.1 fcCmp ⟨5, 9, 81⟩ [] none rfl,
   rfl⟩

/-- C8: on a covered switch with at least two case clauses,
`SwapSwitchCase` walks each adjacent pair `(i, (i+1) mod n)` in order,
producing — when at least one clause of the pair is covered — exactly
one tester snapshot with the two clause bodies exchanged, and returns
the original tree; when every clause is covered this yields exactly `n`
tester invocations. -/
theorem C8_swapswitch_adjacent_pairs (parseInfo : ParseInfo) (m bodyM : NodeMeta)
    (clauses : List Stmt)
    (hcov : covered parseInfo (.stmt (.switchStmt m bodyM clauses)) = true)
    (hlen : 2 ≤ clauses.length)
    (hcc : ∀ s ∈ clauses, ∃ cm cl cb, s = Stmt.caseClause cm cl cb) :
    SwapSwitchCase parseInfo (.stmt (.switchStmt m bodyM clauses))
      = some (specSwapSwitchSnapshots parseInfo m bodyM clauses,
              .stmt (.switchStmt m bodyM clauses))
    ∧ ((∀ s ∈ clauses, covered parseInfo (.stmt s) = true) →
        (specSwapSwitchSnapshots parseInfo m bodyM clauses).length = clauses.length) := by
  constructor
  · have hltlen : ¬clauses.length < 2 := Nat.not_lt.mpr hlen
    have hloop := swapSwitchCaseLoop_spec parseInfo m bodyM clauses hcc
      (List.range clauses.length) (fun i hi => List.mem_range.mp hi)
    simp [SwapSwitchCase, hcov, hltlen, hloop, specSwapSwitchSnapshots]
  · intro hall
    unfold specSwapSwitchSnapshots
    refine Eq.trans (filterMap_length_of_all_isSome _ _ ?_) (List.length_range _)
    intro i hi
    have hilt : i < clauses.length := List.mem_range.mp hi
    have hn : 0 < clauses.length := Nat.lt_of_le_of_lt (Nat.zero_le i) hilt
    have hjlt : (i + 1) % clauses.length < clauses.length := Nat.mod_lt _ hn
    have hsi := List.getElem?_eq_getElem hilt
    have hsj := List.getElem?_eq_getElem hjlt
    obtain ⟨am, al, ab, hsa⟩ := hcc _ (List.getElem?_mem hsi)
    obtain ⟨bm, bl, bb, hsb⟩ := hcc _ (List.getElem?_mem hsj)
    rw [hsa] at hsi
    rw [hsb] at hsj
    have hca : covered parseInfo (.stmt (.caseClause am al ab)) = true := by
      have := hall _ (List.getElem?_mem hsi)
      exact this
    simp [specSwapAt, hsi, hsj, hca]

/-- Witness for C8 at a concrete fully-covered two-clause switch. -/
theorem C8_swapswitch_adjacent_pairs_witness :
    covered fullCover (.stmt (.switchStmt ⟨1, 2, 24⟩ ⟨1, 9, 25⟩ [witCaseA, witCaseB])) = true
    ∧ 2 ≤ ([witCaseA, witCaseB] : List Stmt).length
    ∧ SwapSwitchCase fullCover (.stmt (.switchStmt ⟨1, 2, 24⟩ ⟨1, 9, 25⟩ [witCaseA, witCaseB]))
        = some (specSwapSwitchSnapshots fullCover ⟨1, 2, 24⟩ ⟨1, 9, 25⟩ [witCaseA, witCaseB],
                .stmt (.switchStmt ⟨1, 2, 24⟩ ⟨1, 9, 25⟩ [witCaseA, witCaseB]))
    ∧ (specSwapSwitchSnapshots fullCover ⟨1, 2, 24⟩ ⟨1, 9, 25⟩ [witCaseA, witCaseB]).length = 2 := by
  have hcc : ∀ s ∈ ([witCaseA, witCaseB] : List Stmt), ∃ cm cl cb, s = Stmt.caseClause cm cl cb := by
    intro s hs
    rcases List.mem_cons.mp hs with h | h
    · exact ⟨_, _, _, h⟩
    · rcases List.mem_cons.mp h with h2 | h2
      · exact ⟨_, _, _, h2⟩
      · exact absurd h2 (List.not_mem_nil s)
  have hall : ∀ s ∈ ([witCaseA, witCaseB] : List Stmt), covered fullCover (.stmt s) = true := by
    intro s hs
    rcases List.mem_cons.mp hs with h | h
    · rw [h]; rfl
    · rcases List.mem_cons.mp h with h2 | h2
      · rw [h2]; rfl
      · exact absurd h2 (List.not_mem_nil s)
  refine ⟨rfl, by decide, ?_, ?_⟩
  · exact (C8_swapswitch_adjacent_pairs fullCover ⟨1, 2, 24⟩ ⟨1, 9, 25⟩ [witCaseA, witCaseB]
      rfl (by decide) hcc).1
  · exact (C8_swapswitch_adjacent_pairs fullCover ⟨1, 2, 24⟩ ⟨1, 9, 25⟩ [witCaseA, witCaseB]
      rfl (by decide) hcc).2 hall
